import Mathlib

/-!
Verification of the position-tracking ledger (`PositionTracker` in
`src/v3/core/position-tracker.ts`).

The ledger's persisted state (the `positions` and `position_flags` tables) is
modelled as explicit lists of rows; monetary and quantity columns are modelled
as exact rationals (`ℚ`), timestamps as natural numbers.  Each tracker call is
translated as a pure function from the database state (plus a clock value) to
the new state together with an `Except`-typed outcome, mirroring the thrown
errors of the source.

The source issues its writes through two different connections: the
transaction client handed to the `transaction` helper, and the shared pool
used by the module-level `query` (which is what `flagIssue` calls).  Each
call is therefore modelled as the list of storage writes it issues, every
write tagged with the connection it goes through; the committed state is
obtained by applying the writes.
-/

/-- Lifecycle status of a position row: OPEN, PARTIAL (abbreviated `PART`
here), CLOSED. -/
inductive Status where
  | OPEN
  | PART
  | CLOSED
deriving DecidableEq

/-- Category of an anomaly flag, the `flagType` union of the source. -/
inductive FlagType where
  | sell_without_position
  | sell_exceeds_position
  | suspicious_pnl
  | oversized_position
  | balance_mismatch
deriving DecidableEq

/-- Severity level of a flag. -/
inductive Severity where
  | info
  | warning
  | critical
deriving DecidableEq

/-- Row of the `positions` table, with the columns of the `Position`
interface of the source (numeric columns as exact rationals, timestamps as
naturals). -/
structure Position where
  id : Nat
  wallet_id : Nat
  token : String
  status : Status
  entry_trade_id : Option Nat
  entry_timestamp : Nat
  total_entry_amount : ℚ
  total_entry_cost : ℚ
  avg_entry_price : ℚ
  current_amount : ℚ
  total_exit_amount : ℚ
  total_exit_proceeds : ℚ
  realized_pnl : ℚ
  first_entry_at : Nat
  last_exit_at : Option Nat
  closed_at : Option Nat
  created_at : Nat
  updated_at : Nat
deriving DecidableEq

/-- Row of the `position_flags` table (`resolved` defaults to false on
insert; the resolution columns are only ever written by an external operator
action, which is out of scope, so they are not modelled). -/
structure PositionFlag where
  position_id : Option Nat
  trade_id : Option Nat
  wallet_id : Nat
  flag_type : FlagType
  severity : Severity
  description : String
  resolved : Bool
deriving DecidableEq

/-- Parameters of `recordBuy`. -/
structure RecordBuyParams where
  walletId : Nat
  token : String
  amount : ℚ
  cost : ℚ
  tradeId : Nat
deriving DecidableEq

/-- Parameters of `recordSell`. -/
structure RecordSellParams where
  walletId : Nat
  token : String
  amount : ℚ
  proceeds : ℚ
  tradeId : Nat
deriving DecidableEq

/-- Parameters of `flagIssue` (`positionId` and `tradeId` are optional in the
source). -/
structure FlagParams where
  positionId : Option Nat
  tradeId : Option Nat
  walletId : Nat
  flagType : FlagType
  severity : Severity
  description : String
deriving DecidableEq

/-- Result of a successful `recordSell`. -/
structure SellResult where
  position : Position
  realized_pnl : ℚ
  cost_basis : ℚ
deriving DecidableEq

/-- The distinct error conditions thrown by the tracker, each carrying the
human-readable message of the corresponding `throw new Error(...)` site. -/
inductive TrackerError where
  | invalidAmount (msg : String)
  | noOpenPosition (msg : String)
  | insufficientPosition (msg : String)
deriving DecidableEq

/-- The persisted state the tracker reads and writes: the `positions` rows,
the `position_flags` rows, and the next serial id the database will assign to
an inserted position. -/
structure DB where
  positions : List Position
  flags : List PositionFlag
  nextPositionId : Nat
deriving DecidableEq

/-- Fresh database: no rows, serial ids starting at 1. -/
def dbEmpty : DB := { positions := [], flags := [], nextPositionId := 1 }

/-- Decimal-ish rendering of a rational, standing in for JavaScript number
formatting inside flag descriptions and error messages. -/
def ratStr (x : ℚ) : String :=
  if x.den = 1 then toString x.num else toString x.num ++ "/" ++ toString x.den

/-- JavaScript falsy coercion `v || null` applied to an optional id, as in
`flagIssue` (`positionId || null`, `tradeId || null`): an absent value and
the number 0 both become NULL. -/
def jsOrNull : Option Nat → Option Nat
  | some 0 => none
  | o => o

/-- Predicate of the lookup used by all three operations:
`WHERE wallet_id = $1 AND token = $2 AND status IN ('OPEN', 'PARTIAL')`. -/
def matchesOpen (walletId : Nat) (token : String) (p : Position) : Bool :=
  p.wallet_id == walletId && p.token == token &&
    (p.status == Status.OPEN || p.status == Status.PART)

/-- Earliest row by `first_entry_at` among a list of rows, or `none` when the
list is empty (`ORDER BY first_entry_at ASC LIMIT 1`). -/
def earliestFirstEntry : List Position → Option Position
  | [] => none
  | p :: ps =>
      some (ps.foldl (fun acc q => if q.first_entry_at < acc.first_entry_at then q else acc) p)

/-- The `SELECT * FROM positions WHERE ... status IN ('OPEN','PARTIAL')
ORDER BY first_entry_at ASC LIMIT 1` lookup shared by `recordBuy`,
`recordSell` and `getOpenPosition`. -/
def selectOpenPosition (db : DB) (walletId : Nat) (token : String) : Option Position :=
  earliestFirstEntry (db.positions.filter (matchesOpen walletId token))

/-- Flag row built by `flagIssue` from its parameters. -/
def mkFlag (prm : FlagParams) : PositionFlag :=
  { position_id := jsOrNull prm.positionId
    trade_id := jsOrNull prm.tradeId
    wallet_id := prm.walletId
    flag_type := prm.flagType
    severity := prm.severity
    description := prm.description
    resolved := false }

/-- `flagIssue`: inserts one row into `position_flags` (it also logs to the
console, which has no effect on the persisted state). -/
def flagIssue (db : DB) (prm : FlagParams) : DB :=
  { db with flags := db.flags ++ [mkFlag prm] }

/-- Connection through which a storage write is issued: the client handed to
the `transaction` helper, or the shared pool behind the module-level
`query` (the one `flagIssue` uses). -/
inductive Conn where
  | txClient
  | pool
deriving DecidableEq

/-- One storage write issued during a tracker call, tagged with its
connection. -/
inductive DbWrite where
  | insertPos (p : Position) (conn : Conn)
  | updatePos (id : Nat) (p : Position) (conn : Conn)
  | insertFlag (f : PositionFlag) (conn : Conn)
deriving DecidableEq

/-- Connection tag of a write. -/
def DbWrite.conn : DbWrite → Conn
  | DbWrite.insertPos _ c => c
  | DbWrite.updatePos _ _ c => c
  | DbWrite.insertFlag _ c => c

/-- Effect of a single write on the database state. -/
def applyWrite (db : DB) : DbWrite → DB
  | DbWrite.insertPos p _ =>
      { db with positions := db.positions ++ [p], nextPositionId := db.nextPositionId + 1 }
  | DbWrite.updatePos i p _ =>
      { db with positions := db.positions.map (fun q => if q.id = i then p else q) }
  | DbWrite.insertFlag f _ =>
      { db with flags := db.flags ++ [f] }

/-- Modelled from the spec: the transactional query/execute primitive of
`lib/db/client` (its source is not part of the repository snapshot; the spec
describes it as "a transactional query/execute primitive against the durable
store").  Writes issued on the transaction client take durable effect only if
the surrounding transaction commits; writes issued on the shared pool
connection autocommit immediately and take effect regardless of the
transaction's outcome. -/
def applyWrites (db : DB) (ws : List DbWrite) (commit : Bool) : DB :=
  let poolApplied :=
    ws.foldl (fun d w => if w.conn = Conn.pool then applyWrite d w else d) db
  if commit then
    ws.foldl (fun d w => if w.conn = Conn.txClient then applyWrite d w else d) poolApplied
  else poolApplied

/-- Position row inserted by `recordBuy` when no open/partial position
exists. -/
def buyNewPosition (db : DB) (now : Nat) (prm : RecordBuyParams) : Position :=
  { id := db.nextPositionId
    wallet_id := prm.walletId
    token := prm.token
    status := Status.OPEN
    entry_trade_id := some prm.tradeId
    entry_timestamp := now
    total_entry_amount := prm.amount
    total_entry_cost := prm.cost
    avg_entry_price := prm.cost / prm.amount
    current_amount := prm.amount
    total_exit_amount := 0
    total_exit_proceeds := 0
    realized_pnl := 0
    first_entry_at := now
    last_exit_at := none
    closed_at := none
    created_at := now
    updated_at := now }

/-- Updated row written by `recordBuy` when adding to an existing position:
totals accumulate and the average entry price is recomputed from the new
totals (`updated_at` is refreshed by the database trigger). -/
def buyUpdate (existing : Position) (prm : RecordBuyParams) (now : Nat) : Position :=
  { existing with
      total_entry_amount := existing.total_entry_amount + prm.amount
      total_entry_cost := existing.total_entry_cost + prm.cost
      avg_entry_price :=
        (existing.total_entry_cost + prm.cost) / (existing.total_entry_amount + prm.amount)
      current_amount := existing.current_amount + prm.amount
      updated_at := now }

/-- `recordBuy`, as the list of storage writes it issues together with its
outcome.  Both the INSERT and the UPDATE go through the transaction
client. -/
def recordBuyWrites (db : DB) (now : Nat) (prm : RecordBuyParams) :
    List DbWrite × Except TrackerError Position :=
  if prm.amount ≤ 0 then
    ([], Except.error (TrackerError.invalidAmount
      ("Invalid buy amount: " ++ ratStr prm.amount ++ ". Amount must be positive.")))
  else if prm.cost ≤ 0 then
    ([], Except.error (TrackerError.invalidAmount
      ("Invalid buy cost: " ++ ratStr prm.cost ++ ". Cost must be positive.")))
  else
    match selectOpenPosition db prm.walletId prm.token with
    | none =>
        ([DbWrite.insertPos (buyNewPosition db now prm) Conn.txClient],
         Except.ok (buyNewPosition db now prm))
    | some existing =>
        ([DbWrite.updatePos existing.id (buyUpdate existing prm now) Conn.txClient],
         Except.ok (buyUpdate existing prm now))

/-- `recordBuy`: the committed state together with the returned position or
the thrown error. -/
def recordBuy (db : DB) (now : Nat) (prm : RecordBuyParams) :
    DB × Except TrackerError Position :=
  ((applyWrites db (recordBuyWrites db now prm).1 true), (recordBuyWrites db now prm).2)

/-- FIFO cost basis of a sell: the position's average entry price times the
sold amount. -/
def sellCostBasis (sel : Position) (prm : RecordSellParams) : ℚ :=
  sel.avg_entry_price * prm.amount

/-- Realized profit or loss of a sell: proceeds minus cost basis. -/
def sellRealizedPnl (sel : Position) (prm : RecordSellParams) : ℚ :=
  prm.proceeds - sellCostBasis sel prm

/-- Updated row written by a successful `recordSell`: amounts move from the
position to the exit totals, realized P&L accumulates, the status is
recomputed (CLOSED when nothing remains, else PARTIAL once anything has been
sold), and the exit/close timestamps are set. -/
def sellUpdate (sel : Position) (prm : RecordSellParams) (now : Nat) : Position :=
  { sel with
      current_amount := sel.current_amount - prm.amount
      total_exit_amount := sel.total_exit_amount + prm.amount
      total_exit_proceeds := sel.total_exit_proceeds + prm.proceeds
      realized_pnl := sel.realized_pnl + sellRealizedPnl sel prm
      status :=
        if sel.current_amount - prm.amount = 0 then Status.CLOSED
        else if sel.total_exit_amount + prm.amount > 0 then Status.PART
        else Status.OPEN
      last_exit_at := some now
      closed_at := if sel.current_amount - prm.amount = 0 then some now else none
      updated_at := now }

/-- Flag raised when a sell has no open/partial position to match. -/
def sellWithoutPositionFlag (prm : RecordSellParams) : PositionFlag :=
  mkFlag
    { positionId := none
      tradeId := some prm.tradeId
      walletId := prm.walletId
      flagType := FlagType.sell_without_position
      severity := Severity.critical
      description :=
        "Cannot sell " ++ ratStr prm.amount ++ " " ++ prm.token ++
          ": no open position for wallet " ++ toString prm.walletId ++
          ". Trade ID: " ++ toString prm.tradeId }

/-- Flag raised when the sold amount exceeds the position's remaining
amount. -/
def sellExceedsPositionFlag (sel : Position) (prm : RecordSellParams) : PositionFlag :=
  mkFlag
    { positionId := some sel.id
      tradeId := some prm.tradeId
      walletId := prm.walletId
      flagType := FlagType.sell_exceeds_position
      severity := Severity.critical
      description :=
        "Cannot sell " ++ ratStr prm.amount ++ " " ++ prm.token ++ ": only " ++
          ratStr sel.current_amount ++ " " ++ prm.token ++ " available in position " ++
          toString sel.id ++ ". Trade ID: " ++ toString prm.tradeId }

/-- Advisory write of the large-position check: fires when the pre-sell
remaining amount times the average entry price exceeds 50000. -/
def sellOversizedWrite (sel : Position) (prm : RecordSellParams) : List DbWrite :=
  if sel.current_amount * sel.avg_entry_price > 50000 then
    [DbWrite.insertFlag
      (mkFlag
        { positionId := some sel.id
          tradeId := some prm.tradeId
          walletId := prm.walletId
          flagType := FlagType.oversized_position
          severity := Severity.warning
          description :=
            "Large position detected: " ++ prm.token ++ " position value $" ++
              ratStr (sel.current_amount * sel.avg_entry_price) ++ " in wallet " ++
              toString prm.walletId })
      Conn.pool]
  else []

/-- Advisory write of the suspicious-P&L check: fires when this sell's
realized P&L is negative although the proceeds exceed the cost basis by more
than 10 percent. -/
def sellSuspiciousWrite (sel : Position) (prm : RecordSellParams) : List DbWrite :=
  if sellRealizedPnl sel prm < 0 ∧ prm.proceeds > sellCostBasis sel prm * 1.1 then
    [DbWrite.insertFlag
      (mkFlag
        { positionId := some sel.id
          tradeId := some prm.tradeId
          walletId := prm.walletId
          flagType := FlagType.suspicious_pnl
          severity := Severity.warning
          description :=
            "Suspicious P&L: negative P&L (" ++ ratStr (sellRealizedPnl sel prm) ++
              ") despite high proceeds. Position " ++ toString sel.id ++ ", Trade " ++
              toString prm.tradeId })
      Conn.pool]
  else []

/-- `recordSell`, as the list of storage writes it issues together with its
outcome.  The position UPDATE goes through the transaction client; every flag
insert goes through `flagIssue`, i.e. through the shared pool. -/
def recordSellWrites (db : DB) (now : Nat) (prm : RecordSellParams) :
    List DbWrite × Except TrackerError SellResult :=
  if prm.amount ≤ 0 then
    ([], Except.error (TrackerError.invalidAmount
      ("Invalid sell amount: " ++ ratStr prm.amount ++ ". Amount must be positive.")))
  else if prm.proceeds < 0 then
    ([], Except.error (TrackerError.invalidAmount
      ("Invalid proceeds: " ++ ratStr prm.proceeds ++ ". Proceeds cannot be negative.")))
  else
    match selectOpenPosition db prm.walletId prm.token with
    | none =>
        ([DbWrite.insertFlag (sellWithoutPositionFlag prm) Conn.pool],
         Except.error (TrackerError.noOpenPosition
           ("Cannot sell " ++ ratStr prm.amount ++ " " ++ prm.token ++
             ": no open position for wallet " ++ toString prm.walletId)))
    | some position =>
        if prm.amount > position.current_amount then
          ([DbWrite.insertFlag (sellExceedsPositionFlag position prm) Conn.pool],
           Except.error (TrackerError.insufficientPosition
             ("Cannot sell " ++ ratStr prm.amount ++ " " ++ prm.token ++ ": only " ++
               ratStr position.current_amount ++ " " ++ prm.token ++
               " available in position " ++ toString position.id)))
        else
          (DbWrite.updatePos position.id (sellUpdate position prm now) Conn.txClient ::
             (sellOversizedWrite position prm ++ sellSuspiciousWrite position prm),
           Except.ok
             { position := sellUpdate position prm now
               realized_pnl := sellRealizedPnl position prm
               cost_basis := sellCostBasis position prm })

/-- `recordSell`: the committed state together with the returned sell result
or the thrown error. -/
def recordSell (db : DB) (now : Nat) (prm : RecordSellParams) :
    DB × Except TrackerError SellResult :=
  ((applyWrites db (recordSellWrites db now prm).1 true), (recordSellWrites db now prm).2)

/-- `getOpenPosition`: read-only lookup of the open/partial position. -/
def getOpenPosition (db : DB) (walletId : Nat) (token : String) : Option Position :=
  selectOpenPosition db walletId token

/-- One external call against the tracker, carrying its clock value. -/
inductive TradeOp where
  | buy (now : Nat) (walletId : Nat) (token : String) (amount : ℚ) (cost : ℚ) (tradeId : Nat)
  | sell (now : Nat) (walletId : Nat) (token : String) (amount : ℚ) (proceeds : ℚ) (tradeId : Nat)
deriving DecidableEq

/-- State reached after one tracker call (the call's outcome is dropped; a
rejected call still contributes the flags it persisted). -/
def applyTradeOp (db : DB) : TradeOp → DB
  | TradeOp.buy now w t a c i => (recordBuy db now ⟨w, t, a, c, i⟩).1
  | TradeOp.sell now w t a p i => (recordSell db now ⟨w, t, a, p, i⟩).1

/-- State reached after a sequence of tracker calls. -/
def runOps (db : DB) (ops : List TradeOp) : DB :=
  ops.foldl applyTradeOp db

/-- Flag rows carried by a list of writes, in order. -/
def writeFlags : List DbWrite → List PositionFlag
  | [] => []
  | DbWrite.insertFlag f _ :: ws => f :: writeFlags ws
  | DbWrite.insertPos _ _ :: ws => writeFlags ws
  | DbWrite.updatePos _ _ _ :: ws => writeFlags ws

/-- Arithmetic invariant of a position row: the remaining amount is the
entry total minus the exit total, and is never negative. -/
def arithInv (p : Position) : Prop :=
  p.current_amount = p.total_entry_amount - p.total_exit_amount ∧ 0 ≤ p.current_amount

/-- Correspondence between the lifecycle status and the amount columns. -/
def statusInv (p : Position) : Prop :=
  (p.status = Status.OPEN →
      p.total_exit_amount = 0 ∧ 0 < p.current_amount ∧ p.closed_at = none) ∧
  (p.status = Status.PART →
      0 < p.total_exit_amount ∧ 0 < p.current_amount ∧ p.closed_at = none) ∧
  (p.status = Status.CLOSED → p.current_amount = 0 ∧ p.closed_at ≠ none)

/-- The average entry price is the ratio of the entry totals. -/
def avgInv (p : Position) : Prop :=
  p.avg_entry_price = p.total_entry_cost / p.total_entry_amount

/-- Full per-row invariant. -/
def posInv (p : Position) : Prop := arithInv p ∧ statusInv p ∧ avgInv p

/-- Database invariant: every row satisfies the per-row invariant, row ids
are pairwise distinct, and all ids are below the next serial value. -/
def dbInv (db : DB) : Prop :=
  (∀ p ∈ db.positions, posInv p) ∧
  (db.positions.map Position.id).Nodup ∧
  (∀ p ∈ db.positions, p.id < db.nextPositionId)

/-- Forward order of the lifecycle states. -/
def statusRank : Status → Nat
  | Status.OPEN => 0
  | Status.PART => 1
  | Status.CLOSED => 2

/-- A concrete open position used to instantiate the universally quantified
theorems below at explicit inputs. -/
def witPos : Position :=
  { id := 1
    wallet_id := 1
    token := "SOL"
    status := Status.OPEN
    entry_trade_id := some 1
    entry_timestamp := 1
    total_entry_amount := 100
    total_entry_cost := 1000
    avg_entry_price := 10
    current_amount := 100
    total_exit_amount := 0
    total_exit_proceeds := 0
    realized_pnl := 0
    first_entry_at := 1
    last_exit_at := none
    closed_at := none
    created_at := 1
    updated_at := 1 }

/-- A concrete database holding exactly `witPos`. -/
def witDb : DB := { positions := [witPos], flags := [], nextPositionId := 2 }

/-- Buy opening the position of end-to-end scenario: 100 units for 1000. -/
def c6buy : RecordBuyParams := ⟨1, "SOL", 100, 1000, 1⟩

/-- First sell of the scenario: 30 units for proceeds 360. -/
def c6sell1 : RecordSellParams := ⟨1, "SOL", 30, 360, 2⟩

/-- Second sell of the scenario: the remaining 70 units for proceeds 770. -/
def c6sell2 : RecordSellParams := ⟨1, "SOL", 70, 770, 3⟩

/-- Row created by the scenario's buy. -/
def c6pos1 : Position := buyNewPosition dbEmpty 1 c6buy

/-- Row after the scenario's first sell. -/
def c6pos2 : Position := sellUpdate c6pos1 c6sell1 2

/-- Row after the scenario's second sell. -/
def c6pos3 : Position := sellUpdate c6pos2 c6sell2 3

/-- Buy opening the large position of the atomicity scenario. -/
def c7buy : RecordBuyParams := ⟨1, "SOL", 10000, 100000, 1⟩

/-- Sell of the atomicity scenario (fires the oversized-position flag). -/
def c7sell : RecordSellParams := ⟨1, "SOL", 100, 1100, 2⟩

/-- Database after the scenario's buy. -/
def c7db : DB := (recordBuy dbEmpty 1 c7buy).1

/-- Row created by the scenario's buy. -/
def c7pos : Position := buyNewPosition dbEmpty 1 c7buy

lemma applyWrites_nil (db : DB) (commit : Bool) : applyWrites db [] commit = db := by
  cases commit <;> rfl

lemma applyWrites_flag (db : DB) (f : PositionFlag) (commit : Bool) :
    applyWrites db [DbWrite.insertFlag f Conn.pool] commit =
      { db with flags := db.flags ++ [f] } := by
  cases commit <;> rfl

lemma foldl_pool_flags (db : DB) (ws : List DbWrite)
    (h : ∀ w ∈ ws, ∃ f, w = DbWrite.insertFlag f Conn.pool) :
    ws.foldl (fun d w => if w.conn = Conn.pool then applyWrite d w else d) db =
      { db with flags := db.flags ++ writeFlags ws } := by
  induction ws generalizing db with
  | nil => simp [writeFlags]
  | cons w ws ih =>
      have hrest : ∀ u ∈ ws, ∃ f, u = DbWrite.insertFlag f Conn.pool :=
        fun u hu => h u (List.mem_cons_of_mem w hu)
      obtain ⟨f, hw⟩ := h w (List.mem_cons_self w ws)
      subst hw
      show List.foldl _ ({ db with flags := db.flags ++ [f] } : DB) ws = _
      rw [ih _ hrest]
      simp [writeFlags]

lemma foldl_tx_skips_pool_flags (db : DB) (ws : List DbWrite)
    (h : ∀ w ∈ ws, ∃ f, w = DbWrite.insertFlag f Conn.pool) :
    ws.foldl (fun d w => if w.conn = Conn.txClient then applyWrite d w else d) db = db := by
  induction ws generalizing db with
  | nil => rfl
  | cons w ws ih =>
      have hrest : ∀ u ∈ ws, ∃ f, u = DbWrite.insertFlag f Conn.pool :=
        fun u hu => h u (List.mem_cons_of_mem w hu)
      obtain ⟨f, hw⟩ := h w (List.mem_cons_self w ws)
      subst hw
      show List.foldl _ db ws = db
      exact ih db hrest

lemma applyWrites_update_then_flags (db : DB) (i : Nat) (upd : Position)
    (ws : List DbWrite) (h : ∀ w ∈ ws, ∃ f, w = DbWrite.insertFlag f Conn.pool)
    (commit : Bool) :
    applyWrites db (DbWrite.updatePos i upd Conn.txClient :: ws) commit =
      { db with
          positions :=
            if commit then db.positions.map (fun q => if q.id = i then upd else q)
            else db.positions,
          flags := db.flags ++ writeFlags ws } := by
  show (if commit then _ else _) = _
  have hpool :
      (DbWrite.updatePos i upd Conn.txClient :: ws).foldl
          (fun d w => if w.conn = Conn.pool then applyWrite d w else d) db =
        { db with flags := db.flags ++ writeFlags ws } := by
    simpa [DbWrite.conn] using foldl_pool_flags db ws h
  cases commit with
  | false => simpa using hpool
  | true =>
      simp only [if_pos rfl, hpool]
      simp only [List.foldl_cons, DbWrite.conn, if_pos rfl, applyWrite]
      exact foldl_tx_skips_pool_flags _ ws h

lemma applyWrites_insertPos (db : DB) (p : Position) :
    applyWrites db [DbWrite.insertPos p Conn.txClient] true =
      { db with positions := db.positions ++ [p], nextPositionId := db.nextPositionId + 1 } := by
  rfl

lemma foldl_earliest_mem (ps : List Position) (acc : Position) :
    ps.foldl (fun acc q => if q.first_entry_at < acc.first_entry_at then q else acc) acc
      ∈ acc :: ps := by
  induction ps generalizing acc with
  | nil => simp
  | cons r rs ih =>
      have h := ih (if r.first_entry_at < acc.first_entry_at then r else acc)
      show List.foldl _ (if r.first_entry_at < acc.first_entry_at then r else acc) rs
        ∈ acc :: r :: rs
      rcases List.mem_cons.mp h with h1 | h1
      · rw [h1]
        by_cases hc : r.first_entry_at < acc.first_entry_at
        · simp [hc]
        · simp [hc]
      · exact List.mem_cons_of_mem _ (List.mem_cons_of_mem _ h1)

lemma earliestFirstEntry_mem {l : List Position} {p : Position}
    (h : earliestFirstEntry l = some p) : p ∈ l := by
  match l, h with
  | q :: qs, h =>
      have h2 :
          qs.foldl (fun acc r => if r.first_entry_at < acc.first_entry_at then r else acc) q
            = p := by
        simpa [earliestFirstEntry] using h
      have h3 := foldl_earliest_mem qs q
      rw [h2] at h3
      exact h3

lemma selectOpenPosition_mem {db : DB} {w : Nat} {t : String} {p : Position}
    (h : selectOpenPosition db w t = some p) :
    p ∈ db.positions ∧ p.wallet_id = w ∧ p.token = t ∧
      (p.status = Status.OPEN ∨ p.status = Status.PART) := by
  have hmem := earliestFirstEntry_mem h
  have hf := List.mem_filter.mp hmem
  refine ⟨hf.1, ?_⟩
  have hm := hf.2
  simp only [matchesOpen, Bool.and_eq_true, Bool.or_eq_true, beq_iff_eq] at hm
  exact ⟨hm.1.1, hm.1.2, hm.2⟩

lemma recordBuy_invalid (db : DB) (now : Nat) (prm : RecordBuyParams)
    (h : prm.amount ≤ 0 ∨ prm.cost ≤ 0) :
    ∃ m, recordBuy db now prm = (db, Except.error (TrackerError.invalidAmount m)) := by
  rcases h with h | h
  · exact ⟨"Invalid buy amount: " ++ ratStr prm.amount ++ ". Amount must be positive.",
      by simp [recordBuy, recordBuyWrites, h, applyWrites_nil]⟩
  · by_cases h1 : prm.amount ≤ 0
    · exact ⟨"Invalid buy amount: " ++ ratStr prm.amount ++ ". Amount must be positive.",
        by simp [recordBuy, recordBuyWrites, h1, applyWrites_nil]⟩
    · exact ⟨"Invalid buy cost: " ++ ratStr prm.cost ++ ". Cost must be positive.",
        by simp [recordBuy, recordBuyWrites, h1, h, applyWrites_nil]⟩

lemma recordBuy_new (db : DB) (now : Nat) (prm : RecordBuyParams)
    (h1 : ¬ prm.amount ≤ 0) (h2 : ¬ prm.cost ≤ 0)
    (hsel : selectOpenPosition db prm.walletId prm.token = none) :
    recordBuy db now prm =
      ({ db with
          positions := db.positions ++ [buyNewPosition db now prm],
          nextPositionId := db.nextPositionId + 1 },
       Except.ok (buyNewPosition db now prm)) := by
  have hw : recordBuyWrites db now prm =
      ([DbWrite.insertPos (buyNewPosition db now prm) Conn.txClient],
       Except.ok (buyNewPosition db now prm)) := by
    simp [recordBuyWrites, h1, h2, hsel]
  simp [recordBuy, hw, applyWrites_insertPos]

lemma recordBuy_add (db : DB) (now : Nat) (prm : RecordBuyParams) (existing : Position)
    (h1 : ¬ prm.amount ≤ 0) (h2 : ¬ prm.cost ≤ 0)
    (hsel : selectOpenPosition db prm.walletId prm.token = some existing) :
    recordBuy db now prm =
      ({ db with
          positions := db.positions.map
            (fun q => if q.id = existing.id then buyUpdate existing prm now else q) },
       Except.ok (buyUpdate existing prm now)) := by
  have hw : recordBuyWrites db now prm =
      ([DbWrite.updatePos existing.id (buyUpdate existing prm now) Conn.txClient],
       Except.ok (buyUpdate existing prm now)) := by
    simp [recordBuyWrites, h1, h2, hsel]
  have happ : applyWrites db
      [DbWrite.updatePos existing.id (buyUpdate existing prm now) Conn.txClient] true =
      { db with
          positions := db.positions.map
            (fun q => if q.id = existing.id then buyUpdate existing prm now else q) } := by
    simpa [writeFlags] using
      applyWrites_update_then_flags db existing.id (buyUpdate existing prm now) [] (by simp) true
  simp [recordBuy, hw, happ]

lemma recordSell_invalid (db : DB) (now : Nat) (prm : RecordSellParams)
    (h : prm.amount ≤ 0 ∨ prm.proceeds < 0) :
    ∃ m, recordSell db now prm = (db, Except.error (TrackerError.invalidAmount m)) := by
  rcases h with h | h
  · exact ⟨"Invalid sell amount: " ++ ratStr prm.amount ++ ". Amount must be positive.",
      by simp [recordSell, recordSellWrites, h, applyWrites_nil]⟩
  · by_cases h1 : prm.amount ≤ 0
    · exact ⟨"Invalid sell amount: " ++ ratStr prm.amount ++ ". Amount must be positive.",
        by simp [recordSell, recordSellWrites, h1, applyWrites_nil]⟩
    · exact ⟨"Invalid proceeds: " ++ ratStr prm.proceeds ++ ". Proceeds cannot be negative.",
        by simp [recordSell, recordSellWrites, h1, h, applyWrites_nil]⟩

lemma recordSell_noPosition (db : DB) (now : Nat) (prm : RecordSellParams)
    (h1 : ¬ prm.amount ≤ 0) (h2 : ¬ prm.proceeds < 0)
    (hsel : selectOpenPosition db prm.walletId prm.token = none) :
    ∃ m, recordSell db now prm =
      ({ db with flags := db.flags ++ [sellWithoutPositionFlag prm] },
       Except.error (TrackerError.noOpenPosition m)) := by
  have hw : recordSellWrites db now prm =
      ([DbWrite.insertFlag (sellWithoutPositionFlag prm) Conn.pool],
       Except.error (TrackerError.noOpenPosition
         ("Cannot sell " ++ ratStr prm.amount ++ " " ++ prm.token ++
           ": no open position for wallet " ++ toString prm.walletId))) := by
    simp [recordSellWrites, h1, h2, hsel]
  exact ⟨"Cannot sell " ++ ratStr prm.amount ++ " " ++ prm.token ++
      ": no open position for wallet " ++ toString prm.walletId,
    by simp [recordSell, hw, applyWrites_flag]⟩

lemma recordSell_exceeds (db : DB) (now : Nat) (prm : RecordSellParams) (sel : Position)
    (h1 : ¬ prm.amount ≤ 0) (h2 : ¬ prm.proceeds < 0)
    (hsel : selectOpenPosition db prm.walletId prm.token = some sel)
    (hgt : sel.current_amount < prm.amount) :
    ∃ m, recordSell db now prm =
      ({ db with flags := db.flags ++ [sellExceedsPositionFlag sel prm] },
       Except.error (TrackerError.insufficientPosition m)) := by
  have hw : recordSellWrites db now prm =
      ([DbWrite.insertFlag (sellExceedsPositionFlag sel prm) Conn.pool],
       Except.error (TrackerError.insufficientPosition
         ("Cannot sell " ++ ratStr prm.amount ++ " " ++ prm.token ++ ": only " ++
           ratStr sel.current_amount ++ " " ++ prm.token ++
           " available in position " ++ toString sel.id))) := by
    simp [recordSellWrites, h1, h2, hsel, hgt]
  exact ⟨"Cannot sell " ++ ratStr prm.amount ++ " " ++ prm.token ++ ": only " ++
      ratStr sel.current_amount ++ " " ++ prm.token ++
      " available in position " ++ toString sel.id,
    by simp [recordSell, hw, applyWrites_flag]⟩

lemma sell_advisory_pool (sel : Position) (prm : RecordSellParams) :
    ∀ w ∈ sellOversizedWrite sel prm ++ sellSuspiciousWrite sel prm,
      ∃ f, w = DbWrite.insertFlag f Conn.pool := by
  intro w hw
  rcases List.mem_append.mp hw with h | h
  · unfold sellOversizedWrite at h
    split at h
    · simp at h
      exact ⟨_, h⟩
    · simp at h
  · unfold sellSuspiciousWrite at h
    split at h
    · simp at h
      exact ⟨_, h⟩
    · simp at h

lemma recordSell_success (db : DB) (now : Nat) (prm : RecordSellParams) (sel : Position)
    (h1 : ¬ prm.amount ≤ 0) (h2 : ¬ prm.proceeds < 0)
    (hsel : selectOpenPosition db prm.walletId prm.token = some sel)
    (hle : prm.amount ≤ sel.current_amount) :
    recordSell db now prm =
      ({ db with
          positions := db.positions.map
            (fun q => if q.id = sel.id then sellUpdate sel prm now else q),
          flags := db.flags ++
            writeFlags (sellOversizedWrite sel prm ++ sellSuspiciousWrite sel prm) },
       Except.ok
         { position := sellUpdate sel prm now
           realized_pnl := sellRealizedPnl sel prm
           cost_basis := sellCostBasis sel prm }) := by
  have hgt : ¬ prm.amount > sel.current_amount := not_lt.mpr hle
  have hw : recordSellWrites db now prm =
      (DbWrite.updatePos sel.id (sellUpdate sel prm now) Conn.txClient ::
         (sellOversizedWrite sel prm ++ sellSuspiciousWrite sel prm),
       Except.ok
         { position := sellUpdate sel prm now
           realized_pnl := sellRealizedPnl sel prm
           cost_basis := sellCostBasis sel prm }) := by
    simp [recordSellWrites, h1, h2, hsel, hgt]
  simp [recordSell, hw,
    applyWrites_update_then_flags db sel.id (sellUpdate sel prm now) _
      (sell_advisory_pool sel prm) true]

lemma posInv_buyNewPosition (db : DB) (now : Nat) (prm : RecordBuyParams)
    (h1 : 0 < prm.amount) : posInv (buyNewPosition db now prm) := by
  refine ⟨⟨by simp [buyNewPosition], by simpa [buyNewPosition] using le_of_lt h1⟩,
    ⟨?_, ?_, ?_⟩, ?_⟩
  · intro _
    exact ⟨rfl, h1, rfl⟩
  · intro hcon
    simp [buyNewPosition] at hcon
  · intro hcon
    simp [buyNewPosition] at hcon
  · rfl

lemma posInv_buyUpdate (existing : Position) (prm : RecordBuyParams) (now : Nat)
    (hinv : posInv existing)
    (hstat : existing.status = Status.OPEN ∨ existing.status = Status.PART)
    (h1 : 0 < prm.amount) : posInv (buyUpdate existing prm now) := by
  obtain ⟨⟨harith, hnonneg⟩, ⟨ho, hp, hc⟩, havg⟩ := hinv
  refine ⟨⟨?_, ?_⟩, ⟨?_, ?_, ?_⟩, ?_⟩
  · show existing.current_amount + prm.amount =
      (existing.total_entry_amount + prm.amount) - existing.total_exit_amount
    rw [harith]; ring
  · show (0 : ℚ) ≤ existing.current_amount + prm.amount
    linarith
  · intro hs
    have hs2 : existing.status = Status.OPEN := hs
    obtain ⟨he, hcur, hcl⟩ := ho hs2
    show existing.total_exit_amount = 0 ∧
      0 < existing.current_amount + prm.amount ∧ existing.closed_at = none
    exact ⟨he, by linarith, hcl⟩
  · intro hs
    have hs2 : existing.status = Status.PART := hs
    obtain ⟨he, hcur, hcl⟩ := hp hs2
    show 0 < existing.total_exit_amount ∧
      0 < existing.current_amount + prm.amount ∧ existing.closed_at = none
    exact ⟨he, by linarith, hcl⟩
  · intro hs
    have hs2 : existing.status = Status.CLOSED := hs
    rcases hstat with h | h
    · rw [h] at hs2; cases hs2
    · rw [h] at hs2; cases hs2
  · rfl

lemma sellUpdate_exit_pos (sel : Position) (prm : RecordSellParams)
    (hinv : posInv sel)
    (hstat : sel.status = Status.OPEN ∨ sel.status = Status.PART)
    (h1 : 0 < prm.amount) : 0 < sel.total_exit_amount + prm.amount := by
  obtain ⟨_, ⟨ho, hp, _⟩, _⟩ := hinv
  rcases hstat with h | h
  · have := (ho h).1
    linarith
  · have := (hp h).1
    linarith

lemma posInv_sellUpdate (sel : Position) (prm : RecordSellParams) (now : Nat)
    (hinv : posInv sel)
    (hstat : sel.status = Status.OPEN ∨ sel.status = Status.PART)
    (h1 : 0 < prm.amount) (hle : prm.amount ≤ sel.current_amount) :
    posInv (sellUpdate sel prm now) ∧
      statusRank sel.status ≤ statusRank (sellUpdate sel prm now).status ∧
      (sellUpdate sel prm now).status ≠ Status.OPEN := by
  obtain ⟨⟨harith, hnonneg⟩, ⟨ho, hp, hc⟩, havg⟩ := hinv
  have hexit := sellUpdate_exit_pos sel prm ⟨⟨harith, hnonneg⟩, ⟨ho, hp, hc⟩, havg⟩ hstat h1
  have hcur : (0 : ℚ) ≤ sel.current_amount - prm.amount := by linarith
  by_cases hz : sel.current_amount - prm.amount = 0
  · have hst : (sellUpdate sel prm now).status = Status.CLOSED := by
      simp [sellUpdate, hz]
    have hcl : (sellUpdate sel prm now).closed_at = some now := by
      simp [sellUpdate, hz]
    refine ⟨⟨⟨?_, ?_⟩, ⟨?_, ?_, ?_⟩, ?_⟩, ?_, ?_⟩
    · show sel.current_amount - prm.amount =
        sel.total_entry_amount - (sel.total_exit_amount + prm.amount)
      rw [harith]; ring
    · exact hcur
    · intro hs
      rw [hst] at hs
      cases hs
    · intro hs
      rw [hst] at hs
      cases hs
    · intro _
      exact ⟨hz, by rw [hcl]; simp⟩
    · exact havg
    · rw [hst]
      rcases hstat with h | h
      · rw [h]; simp [statusRank]
      · rw [h]; simp [statusRank]
    · rw [hst]
      simp
  · have hst : (sellUpdate sel prm now).status = Status.PART := by
      simp [sellUpdate, hz, hexit]
    have hcl : (sellUpdate sel prm now).closed_at = none := by
      simp [sellUpdate, hz]
    refine ⟨⟨⟨?_, ?_⟩, ⟨?_, ?_, ?_⟩, ?_⟩, ?_, ?_⟩
    · show sel.current_amount - prm.amount =
        sel.total_entry_amount - (sel.total_exit_amount + prm.amount)
      rw [harith]; ring
    · exact hcur
    · intro hs
      rw [hst] at hs
      cases hs
    · intro _
      refine ⟨hexit, lt_of_le_of_ne hcur (Ne.symm hz), hcl⟩
    · intro hs
      rw [hst] at hs
      cases hs
    · exact havg
    · rw [hst]
      rcases hstat with h | h
      · rw [h]; simp [statusRank]
      · rw [h]
    · rw [hst]
      simp

lemma map_id_preserved (l : List Position) (f : Position → Position)
    (hf : ∀ q, (f q).id = q.id) :
    (l.map f).map Position.id = l.map Position.id := by
  induction l with
  | nil => rfl
  | cons a as ih => simp [hf, ih]

lemma nodup_map_id_inj {l : List Position} (hnd : (l.map Position.id).Nodup)
    {p q : Position} (hp : p ∈ l) (hq : q ∈ l) (hid : p.id = q.id) : p = q := by
  induction l with
  | nil => cases hp
  | cons a as ih =>
      rw [List.map_cons, List.nodup_cons] at hnd
      rcases List.mem_cons.mp hp with rfl | hp2
      · rcases List.mem_cons.mp hq with rfl | hq2
        · rfl
        · exact absurd (hid ▸ List.mem_map_of_mem Position.id hq2) hnd.1
      · rcases List.mem_cons.mp hq with rfl | hq2
        · exact absurd (hid ▸ List.mem_map_of_mem Position.id hp2) hnd.1
        · exact ih hnd.2 hp2 hq2

lemma buyUpdate_id (existing : Position) (prm : RecordBuyParams) (now : Nat) :
    (buyUpdate existing prm now).id = existing.id := rfl

lemma sellUpdate_id (sel : Position) (prm : RecordSellParams) (now : Nat) :
    (sellUpdate sel prm now).id = sel.id := rfl

lemma dbInv_recordBuy (db : DB) (now : Nat) (prm : RecordBuyParams)
    (h : dbInv db) : dbInv (recordBuy db now prm).1 := by
  obtain ⟨hrow, hnd, hbound⟩ := h
  by_cases h1 : prm.amount ≤ 0
  · obtain ⟨m, hm⟩ := recordBuy_invalid db now prm (Or.inl h1)
    rw [hm]
    exact ⟨hrow, hnd, hbound⟩
  by_cases h2 : prm.cost ≤ 0
  · obtain ⟨m, hm⟩ := recordBuy_invalid db now prm (Or.inr h2)
    rw [hm]
    exact ⟨hrow, hnd, hbound⟩
  cases hsel : selectOpenPosition db prm.walletId prm.token with
  | none =>
      rw [recordBuy_new db now prm h1 h2 hsel]
      refine ⟨?_, ?_, ?_⟩
      · intro p hp
        rcases List.mem_append.mp hp with hp2 | hp2
        · exact hrow p hp2
        · rw [List.mem_singleton.mp hp2]
          exact posInv_buyNewPosition db now prm (not_le.mp h1)
      · show ((db.positions ++ [buyNewPosition db now prm]).map Position.id).Nodup
        rw [List.map_append]
        refine List.Nodup.append hnd (by simp) ?_
        intro x hx hy
        obtain ⟨q, hq, hqx⟩ := List.mem_map.mp hx
        have hlt : x < db.nextPositionId := hqx ▸ hbound q hq
        have hx2 : x = db.nextPositionId := by
          simpa [buyNewPosition] using hy
        omega
      · intro p hp
        rcases List.mem_append.mp hp with hp2 | hp2
        · exact Nat.lt_succ_of_lt (hbound p hp2)
        · rw [List.mem_singleton.mp hp2]
          exact Nat.lt_succ_self _
  | some existing =>
      obtain ⟨hmem, _, _, hstat⟩ := selectOpenPosition_mem hsel
      rw [recordBuy_add db now prm existing h1 h2 hsel]
      have hf : ∀ q : Position,
          ((fun q => if q.id = existing.id then buyUpdate existing prm now else q) q).id
            = q.id := by
        intro q
        by_cases hc : q.id = existing.id
        · simp [hc, buyUpdate_id]
        · simp [hc]
      refine ⟨?_, ?_, ?_⟩
      · intro p hp
        obtain ⟨q, hq, hqp⟩ := List.mem_map.mp hp
        by_cases hc : q.id = existing.id
        · rw [← hqp]
          simp only [hc, if_pos rfl]
          exact posInv_buyUpdate existing prm now (hrow existing hmem) hstat (not_le.mp h1)
        · rw [← hqp]
          simp only [if_neg hc]
          exact hrow q hq
      · show ((db.positions.map _).map Position.id).Nodup
        rw [map_id_preserved _ _ hf]
        exact hnd
      · intro p hp
        obtain ⟨q, hq, hqp⟩ := List.mem_map.mp hp
        have : p.id = q.id := by rw [← hqp]; exact hf q
        rw [this]
        exact hbound q hq

lemma dbInv_recordSell (db : DB) (now : Nat) (prm : RecordSellParams)
    (h : dbInv db) : dbInv (recordSell db now prm).1 := by
  obtain ⟨hrow, hnd, hbound⟩ := h
  by_cases h1 : prm.amount ≤ 0
  · obtain ⟨m, hm⟩ := recordSell_invalid db now prm (Or.inl h1)
    rw [hm]
    exact ⟨hrow, hnd, hbound⟩
  by_cases h2 : prm.proceeds < 0
  · obtain ⟨m, hm⟩ := recordSell_invalid db now prm (Or.inr h2)
    rw [hm]
    exact ⟨hrow, hnd, hbound⟩
  cases hsel : selectOpenPosition db prm.walletId prm.token with
  | none =>
      obtain ⟨m, hm⟩ := recordSell_noPosition db now prm h1 h2 hsel
      rw [hm]
      exact ⟨hrow, hnd, hbound⟩
  | some sel =>
      obtain ⟨hmem, _, _, hstat⟩ := selectOpenPosition_mem hsel
      by_cases hgt : sel.current_amount < prm.amount
      · obtain ⟨m, hm⟩ := recordSell_exceeds db now prm sel h1 h2 hsel hgt
        rw [hm]
        exact ⟨hrow, hnd, hbound⟩
      · have hle : prm.amount ≤ sel.current_amount := not_lt.mp hgt
        rw [recordSell_success db now prm sel h1 h2 hsel hle]
        have hupd := posInv_sellUpdate sel prm now (hrow sel hmem) hstat (not_le.mp h1) hle
        have hf : ∀ q : Position,
            ((fun q => if q.id = sel.id then sellUpdate sel prm now else q) q).id
              = q.id := by
          intro q
          by_cases hc : q.id = sel.id
          · simp [hc, sellUpdate_id]
          · simp [hc]
        refine ⟨?_, ?_, ?_⟩
        · intro p hp
          obtain ⟨q, hq, hqp⟩ := List.mem_map.mp hp
          by_cases hc : q.id = sel.id
          · rw [← hqp]
            simp only [hc, if_pos rfl]
            exact hupd.1
          · rw [← hqp]
            simp only [if_neg hc]
            exact hrow q hq
        · show ((db.positions.map _).map Position.id).Nodup
          rw [map_id_preserved _ _ hf]
          exact hnd
        · intro p hp
          obtain ⟨q, hq, hqp⟩ := List.mem_map.mp hp
          have : p.id = q.id := by rw [← hqp]; exact hf q
          rw [this]
          exact hbound q hq

lemma dbInv_applyTradeOp (db : DB) (op : TradeOp) (h : dbInv db) :
    dbInv (applyTradeOp db op) := by
  cases op with
  | buy now w t a c i => exact dbInv_recordBuy db now _ h
  | sell now w t a p i => exact dbInv_recordSell db now _ h

lemma dbInv_dbEmpty : dbInv dbEmpty := by
  refine ⟨?_, ?_, ?_⟩ <;> simp [dbEmpty]

lemma dbInv_runOps (db : DB) (ops : List TradeOp) (h : dbInv db) :
    dbInv (runOps db ops) := by
  induction ops generalizing db with
  | nil => exact h
  | cons op ops ih => exact ih _ (dbInv_applyTradeOp db op h)

lemma rank_mono_applyTradeOp (db : DB) (op : TradeOp) (h : dbInv db) :
    ∀ p ∈ db.positions, ∀ q ∈ (applyTradeOp db op).positions, q.id = p.id →
      statusRank p.status ≤ statusRank q.status := by
  obtain ⟨hrow, hnd, hbound⟩ := h
  have hsame : ∀ l : List Position, l = db.positions →
      ∀ p ∈ db.positions, ∀ q ∈ l, q.id = p.id →
        statusRank p.status ≤ statusRank q.status := by
    rintro l rfl p hp q hq hid
    rw [nodup_map_id_inj hnd hq hp hid]
  cases op with
  | buy now w t a c i =>
      show ∀ p ∈ db.positions, ∀ q ∈ (recordBuy db now ⟨w, t, a, c, i⟩).1.positions, _
      by_cases h1 : (⟨w, t, a, c, i⟩ : RecordBuyParams).amount ≤ 0
      · obtain ⟨m, hm⟩ := recordBuy_invalid db now _ (Or.inl h1)
        rw [hm]
        exact hsame _ rfl
      by_cases h2 : (⟨w, t, a, c, i⟩ : RecordBuyParams).cost ≤ 0
      · obtain ⟨m, hm⟩ := recordBuy_invalid db now _ (Or.inr h2)
        rw [hm]
        exact hsame _ rfl
      cases hsel : selectOpenPosition db w t with
      | none =>
          rw [recordBuy_new db now _ h1 h2 hsel]
          intro p hp q hq hid
          rcases List.mem_append.mp hq with hq2 | hq2
          · rw [nodup_map_id_inj hnd hq2 hp hid]
          · exfalso
            rw [List.mem_singleton.mp hq2] at hid
            have : db.nextPositionId = p.id := hid
            have := hbound p hp
            omega
      | some existing =>
          obtain ⟨hmem, _, _, _⟩ := selectOpenPosition_mem hsel
          rw [recordBuy_add db now _ existing h1 h2 hsel]
          intro p hp q hq hid
          obtain ⟨q2, hq2, hq2q⟩ := List.mem_map.mp hq
          by_cases hc : q2.id = existing.id
          · have hq2eq : q = buyUpdate existing ⟨w, t, a, c, i⟩ now := by
              rw [← hq2q]; simp [hc]
            have hqid : q.id = existing.id := by rw [hq2eq]; rfl
            have hpe : p = existing := nodup_map_id_inj hnd hp hmem (by omega)
            rw [hq2eq, hpe]
            exact le_of_eq rfl
          · have hq2eq : q = q2 := by rw [← hq2q]; simp [hc]
            have hq2p : q2 = p :=
              nodup_map_id_inj hnd hq2 hp (by rw [← hq2eq]; exact hid)
            exact le_of_eq (by rw [hq2eq, hq2p])
  | sell now w t a pr i =>
      show ∀ p ∈ db.positions, ∀ q ∈ (recordSell db now ⟨w, t, a, pr, i⟩).1.positions, _
      by_cases h1 : (⟨w, t, a, pr, i⟩ : RecordSellParams).amount ≤ 0
      · obtain ⟨m, hm⟩ := recordSell_invalid db now _ (Or.inl h1)
        rw [hm]
        exact hsame _ rfl
      by_cases h2 : (⟨w, t, a, pr, i⟩ : RecordSellParams).proceeds < 0
      · obtain ⟨m, hm⟩ := recordSell_invalid db now _ (Or.inr h2)
        rw [hm]
        exact hsame _ rfl
      cases hsel : selectOpenPosition db w t with
      | none =>
          obtain ⟨m, hm⟩ := recordSell_noPosition db now _ h1 h2 hsel
          rw [hm]
          exact hsame _ rfl
      | some sel =>
          obtain ⟨hmem, _, _, hstat⟩ := selectOpenPosition_mem hsel
          by_cases hgt : sel.current_amount < (⟨w, t, a, pr, i⟩ : RecordSellParams).amount
          · obtain ⟨m, hm⟩ := recordSell_exceeds db now _ sel h1 h2 hsel hgt
            rw [hm]
            exact hsame _ rfl
          · have hle : (⟨w, t, a, pr, i⟩ : RecordSellParams).amount ≤ sel.current_amount :=
              not_lt.mp hgt
            rw [recordSell_success db now _ sel h1 h2 hsel hle]
            intro p hp q hq hid
            obtain ⟨q2, hq2, hq2q⟩ := List.mem_map.mp hq
            by_cases hc : q2.id = sel.id
            · have hq2eq : q = sellUpdate sel ⟨w, t, a, pr, i⟩ now := by
                rw [← hq2q]; simp [hc]
              have hqid : q.id = sel.id := by rw [hq2eq]; rfl
              have hpe : p = sel := nodup_map_id_inj hnd hp hmem (by omega)
              rw [hq2eq, hpe]
              exact (posInv_sellUpdate sel _ now (hrow sel hmem) hstat
                (not_le.mp h1) hle).2.1
            · have hq2eq : q = q2 := by rw [← hq2q]; simp [hc]
              have hq2p : q2 = p :=
                nodup_map_id_inj hnd hq2 hp (by rw [← hq2eq]; exact hid)
              exact le_of_eq (by rw [hq2eq, hq2p])

lemma closed_immutable_applyTradeOp (db : DB) (op : TradeOp) (h : dbInv db) :
    ∀ p ∈ db.positions, p.status = Status.CLOSED → p ∈ (applyTradeOp db op).positions := by
  obtain ⟨hrow, hnd, hbound⟩ := h
  cases op with
  | buy now w t a c i =>
      show ∀ p ∈ db.positions, _ → p ∈ (recordBuy db now ⟨w, t, a, c, i⟩).1.positions
      by_cases h1 : (⟨w, t, a, c, i⟩ : RecordBuyParams).amount ≤ 0
      · obtain ⟨m, hm⟩ := recordBuy_invalid db now _ (Or.inl h1)
        rw [hm]
        exact fun p hp _ => hp
      by_cases h2 : (⟨w, t, a, c, i⟩ : RecordBuyParams).cost ≤ 0
      · obtain ⟨m, hm⟩ := recordBuy_invalid db now _ (Or.inr h2)
        rw [hm]
        exact fun p hp _ => hp
      cases hsel : selectOpenPosition db w t with
      | none =>
          rw [recordBuy_new db now _ h1 h2 hsel]
          exact fun p hp _ => List.mem_append_left _ hp
      | some existing =>
          obtain ⟨hmem, _, _, hstat⟩ := selectOpenPosition_mem hsel
          rw [recordBuy_add db now _ existing h1 h2 hsel]
          intro p hp hcl
          have hne : p.id ≠ existing.id := by
            intro he
            have : p = existing := nodup_map_id_inj hnd hp hmem he
            rw [this] at hcl
            rcases hstat with hst | hst
            · rw [hst] at hcl; cases hcl
            · rw [hst] at hcl; cases hcl
          exact List.mem_map.mpr ⟨p, hp, by simp [hne]⟩
  | sell now w t a pr i =>
      show ∀ p ∈ db.positions, _ → p ∈ (recordSell db now ⟨w, t, a, pr, i⟩).1.positions
      by_cases h1 : (⟨w, t, a, pr, i⟩ : RecordSellParams).amount ≤ 0
      · obtain ⟨m, hm⟩ := recordSell_invalid db now _ (Or.inl h1)
        rw [hm]
        exact fun p hp _ => hp
      by_cases h2 : (⟨w, t, a, pr, i⟩ : RecordSellParams).proceeds < 0
      · obtain ⟨m, hm⟩ := recordSell_invalid db now _ (Or.inr h2)
        rw [hm]
        exact fun p hp _ => hp
      cases hsel : selectOpenPosition db w t with
      | none =>
          obtain ⟨m, hm⟩ := recordSell_noPosition db now _ h1 h2 hsel
          rw [hm]
          exact fun p hp _ => hp
      | some sel =>
          obtain ⟨hmem, _, _, hstat⟩ := selectOpenPosition_mem hsel
          by_cases hgt : sel.current_amount < (⟨w, t, a, pr, i⟩ : RecordSellParams).amount
          · obtain ⟨m, hm⟩ := recordSell_exceeds db now _ sel h1 h2 hsel hgt
            rw [hm]
            exact fun p hp _ => hp
          · have hle : (⟨w, t, a, pr, i⟩ : RecordSellParams).amount ≤ sel.current_amount :=
              not_lt.mp hgt
            rw [recordSell_success db now _ sel h1 h2 hsel hle]
            intro p hp hcl
            have hne : p.id ≠ sel.id := by
              intro he
              have : p = sel := nodup_map_id_inj hnd hp hmem he
              rw [this] at hcl
              rcases hstat with hst | hst
              · rw [hst] at hcl; cases hcl
              · rw [hst] at hcl; cases hcl
            exact List.mem_map.mpr ⟨p, hp, by simp [hne]⟩

lemma status_characterization (p : Position) (h : posInv p) :
    (p.status = Status.OPEN ↔ p.total_exit_amount = 0 ∧ 0 < p.current_amount) ∧
    (p.status = Status.PART ↔ 0 < p.total_exit_amount ∧ 0 < p.current_amount) ∧
    (p.status = Status.CLOSED ↔ p.current_amount = 0) ∧
    (p.status = Status.CLOSED → p.closed_at ≠ none) := by
  obtain ⟨⟨harith, hnn⟩, ⟨ho, hpt, hc⟩, _⟩ := h
  cases hs : p.status with
  | OPEN =>
      obtain ⟨he, hcur, hcl⟩ := ho hs
      refine ⟨?_, ?_, ?_, ?_⟩
      · exact ⟨fun _ => ⟨he, hcur⟩, fun _ => rfl⟩
      · constructor
        · intro hcon
          cases hcon
        · rintro ⟨hex, _⟩
          exact ((by linarith : False)).elim
      · constructor
        · intro hcon
          cases hcon
        · intro hz
          exact ((by linarith : False)).elim
      · intro hcon
        cases hcon
  | PART =>
      obtain ⟨he, hcur, hcl⟩ := hpt hs
      refine ⟨?_, ?_, ?_, ?_⟩
      · constructor
        · intro hcon
          cases hcon
        · rintro ⟨hex, _⟩
          exact ((by linarith : False)).elim
      · exact ⟨fun _ => ⟨he, hcur⟩, fun _ => rfl⟩
      · constructor
        · intro hcon
          cases hcon
        · intro hz
          exact ((by linarith : False)).elim
      · intro hcon
        cases hcon
  | CLOSED =>
      obtain ⟨hz, hcl⟩ := hc hs
      refine ⟨?_, ?_, ?_, ?_⟩
      · constructor
        · intro hcon
          cases hcon
        · rintro ⟨_, hcur⟩
          exact ((by linarith : False)).elim
      · constructor
        · intro hcon
          cases hcon
        · rintro ⟨_, hcur⟩
          exact ((by linarith : False)).elim
      · exact ⟨fun _ => hz, fun _ => rfl⟩
      · intro _
        exact hcl

lemma recordSellWrites_success (db : DB) (now : Nat) (prm : RecordSellParams) (sel : Position)
    (h1 : ¬ prm.amount ≤ 0) (h2 : ¬ prm.proceeds < 0)
    (hsel : selectOpenPosition db prm.walletId prm.token = some sel)
    (hle : prm.amount ≤ sel.current_amount) :
    recordSellWrites db now prm =
      (DbWrite.updatePos sel.id (sellUpdate sel prm now) Conn.txClient ::
         (sellOversizedWrite sel prm ++ sellSuspiciousWrite sel prm),
       Except.ok
         { position := sellUpdate sel prm now
           realized_pnl := sellRealizedPnl sel prm
           cost_basis := sellCostBasis sel prm }) := by
  have hgt : ¬ prm.amount > sel.current_amount := not_lt.mpr hle
  simp [recordSellWrites, h1, h2, hsel, hgt]

/-- C1: a `recordSell` call succeeds (returning a position, realized P&L and
cost basis) exactly when the sold amount is strictly positive, the proceeds
are non-negative, an OPEN-or-PARTIAL position is found for the wallet and
token, and the sold amount is at most that position's current remaining
amount; in every other case it fails with an error. -/
theorem recordSell_ok_iff (db : DB) (now : Nat) (prm : RecordSellParams) :
    (∃ r, (recordSell db now prm).2 = Except.ok r) ↔
      (0 < prm.amount ∧ 0 ≤ prm.proceeds ∧
        ∃ p, selectOpenPosition db prm.walletId prm.token = some p ∧
          prm.amount ≤ p.current_amount) := by
  constructor
  · rintro ⟨r, hr⟩
    by_cases h1 : prm.amount ≤ 0
    · obtain ⟨m, hm⟩ := recordSell_invalid db now prm (Or.inl h1)
      rw [hm] at hr
      cases hr
    by_cases h2 : prm.proceeds < 0
    · obtain ⟨m, hm⟩ := recordSell_invalid db now prm (Or.inr h2)
      rw [hm] at hr
      cases hr
    cases hsel : selectOpenPosition db prm.walletId prm.token with
    | none =>
        obtain ⟨m, hm⟩ := recordSell_noPosition db now prm h1 h2 hsel
        rw [hm] at hr
        cases hr
    | some p =>
        by_cases hgt : p.current_amount < prm.amount
        · obtain ⟨m, hm⟩ := recordSell_exceeds db now prm p h1 h2 hsel hgt
          rw [hm] at hr
          cases hr
        · exact ⟨not_le.mp h1, not_lt.mp h2, p, rfl, not_lt.mp hgt⟩
  · rintro ⟨ha, hp, p, hsel, hle⟩
    rw [recordSell_success db now prm p (not_le.mpr ha) (not_lt.mpr hp) hsel hle]
    exact ⟨_, rfl⟩

/-- Witness for C1 at a concrete database and sell call. -/
theorem recordSell_ok_iff_witness :
    ∃ r, (recordSell witDb 2 ⟨1, "SOL", 30, 360, 2⟩).2 = Except.ok r :=
  (recordSell_ok_iff witDb 2 ⟨1, "SOL", 30, 360, 2⟩).mpr
    ⟨by decide, by decide, witPos, rfl, by decide⟩

/-- C2: a sell rejected for a missing position or for exceeding the
remaining amount persists exactly one flag — `sell_without_position` or
`sell_exceeds_position` respectively, severity critical — and leaves the
positions table (and hence every field of every position row) unchanged. -/
theorem rejectedSell_flag_and_unchanged (db : DB) (now : Nat) (prm : RecordSellParams)
    (h1 : 0 < prm.amount) (h2 : 0 ≤ prm.proceeds) :
    (selectOpenPosition db prm.walletId prm.token = none →
      ∃ f, (recordSell db now prm).1 = { db with flags := db.flags ++ [f] } ∧
        f.flag_type = FlagType.sell_without_position ∧ f.severity = Severity.critical) ∧
    (∀ p, selectOpenPosition db prm.walletId prm.token = some p →
      p.current_amount < prm.amount →
      ∃ f, (recordSell db now prm).1 = { db with flags := db.flags ++ [f] } ∧
        f.flag_type = FlagType.sell_exceeds_position ∧ f.severity = Severity.critical) := by
  have h1a := not_le.mpr h1
  have h2a := not_lt.mpr h2
  constructor
  · intro hsel
    obtain ⟨m, hm⟩ := recordSell_noPosition db now prm h1a h2a hsel
    exact ⟨sellWithoutPositionFlag prm, by rw [hm], rfl, rfl⟩
  · intro p hsel hgt
    obtain ⟨m, hm⟩ := recordSell_exceeds db now prm p h1a h2a hsel hgt
    exact ⟨sellExceedsPositionFlag p prm, by rw [hm], rfl, rfl⟩

/-- Witness for C2: selling with no position in an empty database. -/
theorem rejectedSell_flag_and_unchanged_witness :
    ∃ f, (recordSell dbEmpty 5 ⟨1, "SOL", 100, 1200, 999⟩).1 =
        { dbEmpty with flags := dbEmpty.flags ++ [f] } ∧
      f.flag_type = FlagType.sell_without_position ∧ f.severity = Severity.critical :=
  (rejectedSell_flag_and_unchanged dbEmpty 5 ⟨1, "SOL", 100, 1200, 999⟩
    (by decide) (by decide)).1 rfl

/-- C3: after any sequence of tracker calls starting from a fresh database,
every position row's current remaining amount equals its cumulative entry
amount minus its cumulative exit amount, and is never negative. -/
theorem remaining_amount_invariant (ops : List TradeOp) :
    ∀ p ∈ (runOps dbEmpty ops).positions,
      p.current_amount = p.total_entry_amount - p.total_exit_amount ∧
        0 ≤ p.current_amount := by
  intro p hp
  exact ((dbInv_runOps dbEmpty ops dbInv_dbEmpty).1 p hp).1

/-- Witness for C3 after a single concrete buy. -/
theorem remaining_amount_invariant_witness :
    (buyNewPosition dbEmpty 1 ⟨1, "SOL", 100, 1000, 1⟩).current_amount =
        (buyNewPosition dbEmpty 1 ⟨1, "SOL", 100, 1000, 1⟩).total_entry_amount -
          (buyNewPosition dbEmpty 1 ⟨1, "SOL", 100, 1000, 1⟩).total_exit_amount ∧
      0 ≤ (buyNewPosition dbEmpty 1 ⟨1, "SOL", 100, 1000, 1⟩).current_amount :=
  remaining_amount_invariant [TradeOp.buy 1 1 "SOL" 100 1000 1]
    (buyNewPosition dbEmpty 1 ⟨1, "SOL", 100, 1000, 1⟩) (List.Mem.head _)

/-- C4: across any sequence of calls from a fresh database, one further call
only moves each row's lifecycle state forward (OPEN, PARTIAL, CLOSED in that
order); after the call every row is OPEN exactly when nothing has been sold
and something remains, PARTIAL exactly when something has been sold and
something remains, CLOSED exactly when nothing remains (with the close
timestamp then set); CLOSED rows are never mutated, and the lookup a sell is
served from never returns a CLOSED row, so no sell ever succeeds against a
CLOSED position row. -/
theorem lifecycle_forward (ops : List TradeOp) (op : TradeOp) :
    (∀ p ∈ (runOps dbEmpty ops).positions,
        ∀ q ∈ (applyTradeOp (runOps dbEmpty ops) op).positions,
          q.id = p.id → statusRank p.status ≤ statusRank q.status) ∧
    (∀ q ∈ (applyTradeOp (runOps dbEmpty ops) op).positions,
        (q.status = Status.OPEN ↔ q.total_exit_amount = 0 ∧ 0 < q.current_amount) ∧
        (q.status = Status.PART ↔ 0 < q.total_exit_amount ∧ 0 < q.current_amount) ∧
        (q.status = Status.CLOSED ↔ q.current_amount = 0) ∧
        (q.status = Status.CLOSED → q.closed_at ≠ none)) ∧
    (∀ p ∈ (runOps dbEmpty ops).positions, p.status = Status.CLOSED →
        p ∈ (applyTradeOp (runOps dbEmpty ops) op).positions) ∧
    (∀ w t sel, selectOpenPosition (runOps dbEmpty ops) w t = some sel →
        sel.status ≠ Status.CLOSED) := by
  have hinv := dbInv_runOps dbEmpty ops dbInv_dbEmpty
  have hinv2 := dbInv_applyTradeOp _ op hinv
  refine ⟨rank_mono_applyTradeOp _ op hinv, ?_,
    closed_immutable_applyTradeOp _ op hinv, ?_⟩
  · intro q hq
    exact status_characterization q (hinv2.1 q hq)
  · intro w t sel hsel
    obtain ⟨_, _, _, hstat⟩ := selectOpenPosition_mem hsel
    rcases hstat with h | h
    · rw [h]
      exact fun hcon => nomatch hcon
    · rw [h]
      exact fun hcon => nomatch hcon

/-- Witness for C4: after a concrete buy, the open-position lookup for the
pair returns a non-CLOSED row. -/
theorem lifecycle_forward_witness :
    (buyNewPosition dbEmpty 1 ⟨1, "SOL", 100, 1000, 1⟩).status ≠ Status.CLOSED :=
  (lifecycle_forward [TradeOp.buy 1 1 "SOL" 100 1000 1]
      (TradeOp.buy 9 2 "ETH" 5 50 9)).2.2.2 1 "SOL"
    (buyNewPosition dbEmpty 1 ⟨1, "SOL", 100, 1000, 1⟩) rfl

/-- C5: after every successful `recordBuy` the returned position's average
entry price equals its cumulative entry cost divided by its cumulative entry
amount (recomputed from the prior totals plus the new buy), and a
`recordSell` never changes any row's average entry price or entry totals. -/
theorem avg_price_recompute (db : DB) (now : Nat) (bprm : RecordBuyParams)
    (sprm : RecordSellParams) (pos : Position) :
    ((recordBuy db now bprm).2 = Except.ok pos →
      pos.avg_entry_price = pos.total_entry_cost / pos.total_entry_amount) ∧
    (∀ p, selectOpenPosition db bprm.walletId bprm.token = some p →
      (recordBuy db now bprm).2 = Except.ok pos →
      pos.total_entry_amount = p.total_entry_amount + bprm.amount ∧
      pos.total_entry_cost = p.total_entry_cost + bprm.cost ∧
      pos.avg_entry_price =
        (p.total_entry_cost + bprm.cost) / (p.total_entry_amount + bprm.amount)) ∧
    (∀ q ∈ (recordSell db now sprm).1.positions, ∃ p ∈ db.positions,
      q.avg_entry_price = p.avg_entry_price ∧
      q.total_entry_amount = p.total_entry_amount ∧
      q.total_entry_cost = p.total_entry_cost) := by
  refine ⟨?_, ?_, ?_⟩
  · intro hok
    by_cases h1 : bprm.amount ≤ 0
    · obtain ⟨m, hm⟩ := recordBuy_invalid db now bprm (Or.inl h1)
      rw [hm] at hok
      cases hok
    by_cases h2 : bprm.cost ≤ 0
    · obtain ⟨m, hm⟩ := recordBuy_invalid db now bprm (Or.inr h2)
      rw [hm] at hok
      cases hok
    cases hsel : selectOpenPosition db bprm.walletId bprm.token with
    | none =>
        rw [recordBuy_new db now bprm h1 h2 hsel] at hok
        cases hok
        rfl
    | some existing =>
        rw [recordBuy_add db now bprm existing h1 h2 hsel] at hok
        cases hok
        rfl
  · intro p hsel hok
    by_cases h1 : bprm.amount ≤ 0
    · obtain ⟨m, hm⟩ := recordBuy_invalid db now bprm (Or.inl h1)
      rw [hm] at hok
      cases hok
    by_cases h2 : bprm.cost ≤ 0
    · obtain ⟨m, hm⟩ := recordBuy_invalid db now bprm (Or.inr h2)
      rw [hm] at hok
      cases hok
    rw [recordBuy_add db now bprm p h1 h2 hsel] at hok
    cases hok
    exact ⟨rfl, rfl, rfl⟩
  · intro q hq
    by_cases h1 : sprm.amount ≤ 0
    · obtain ⟨m, hm⟩ := recordSell_invalid db now sprm (Or.inl h1)
      rw [hm] at hq
      exact ⟨q, hq, rfl, rfl, rfl⟩
    by_cases h2 : sprm.proceeds < 0
    · obtain ⟨m, hm⟩ := recordSell_invalid db now sprm (Or.inr h2)
      rw [hm] at hq
      exact ⟨q, hq, rfl, rfl, rfl⟩
    cases hsel : selectOpenPosition db sprm.walletId sprm.token with
    | none =>
        obtain ⟨m, hm⟩ := recordSell_noPosition db now sprm h1 h2 hsel
        rw [hm] at hq
        exact ⟨q, hq, rfl, rfl, rfl⟩
    | some sel =>
        obtain ⟨hmem, _, _, _⟩ := selectOpenPosition_mem hsel
        by_cases hgt : sel.current_amount < sprm.amount
        · obtain ⟨m, hm⟩ := recordSell_exceeds db now sprm sel h1 h2 hsel hgt
          rw [hm] at hq
          exact ⟨q, hq, rfl, rfl, rfl⟩
        · have hle : sprm.amount ≤ sel.current_amount := not_lt.mp hgt
          rw [recordSell_success db now sprm sel h1 h2 hsel hle] at hq
          obtain ⟨q2, hq2, hq2q⟩ := List.mem_map.mp hq
          by_cases hc : q2.id = sel.id
          · have : q = sellUpdate sel sprm now := by rw [← hq2q]; simp [hc]
            rw [this]
            exact ⟨sel, hmem, rfl, rfl, rfl⟩
          · have : q = q2 := by rw [← hq2q]; simp [hc]
            rw [this]
            exact ⟨q2, hq2, rfl, rfl, rfl⟩

/-- Witness for C5: the position created by a concrete first buy carries the
ratio of its totals as its average entry price. -/
theorem avg_price_recompute_witness :
    (buyNewPosition dbEmpty 1 ⟨1, "SOL", 100, 1000, 1⟩).avg_entry_price =
      (buyNewPosition dbEmpty 1 ⟨1, "SOL", 100, 1000, 1⟩).total_entry_cost /
        (buyNewPosition dbEmpty 1 ⟨1, "SOL", 100, 1000, 1⟩).total_entry_amount :=
  (avg_price_recompute dbEmpty 1 ⟨1, "SOL", 100, 1000, 1⟩ ⟨1, "SOL", 1, 1, 1⟩
    (buyNewPosition dbEmpty 1 ⟨1, "SOL", 100, 1000, 1⟩)).1 rfl

/-- C8: `recordBuy` rejects a non-positive amount or non-positive cost with
an invalid-amount error before any storage mutation, and a buy — successful
or rejected — never writes any flag. -/
theorem buy_validation (db : DB) (now : Nat) (prm : RecordBuyParams) :
    ((recordBuy db now prm).1.flags = db.flags) ∧
    (prm.amount ≤ 0 ∨ prm.cost ≤ 0 →
      (recordBuy db now prm).1 = db ∧
        ∃ m, (recordBuy db now prm).2 = Except.error (TrackerError.invalidAmount m)) := by
  constructor
  · by_cases h1 : prm.amount ≤ 0
    · obtain ⟨m, hm⟩ := recordBuy_invalid db now prm (Or.inl h1)
      rw [hm]
    by_cases h2 : prm.cost ≤ 0
    · obtain ⟨m, hm⟩ := recordBuy_invalid db now prm (Or.inr h2)
      rw [hm]
    cases hsel : selectOpenPosition db prm.walletId prm.token with
    | none => rw [recordBuy_new db now prm h1 h2 hsel]
    | some existing => rw [recordBuy_add db now prm existing h1 h2 hsel]
  · intro h
    obtain ⟨m, hm⟩ := recordBuy_invalid db now prm h
    exact ⟨by rw [hm], m, by rw [hm]⟩

/-- Witness for C8: a zero-amount buy is rejected without touching the
database. -/
theorem buy_validation_witness :
    (recordBuy dbEmpty 9 ⟨1, "SOL", 0, 1000, 7⟩).1 = dbEmpty ∧
      ∃ m, (recordBuy dbEmpty 9 ⟨1, "SOL", 0, 1000, 7⟩).2 =
        Except.error (TrackerError.invalidAmount m) :=
  (buy_validation dbEmpty 9 ⟨1, "SOL", 0, 1000, 7⟩).2 (Or.inl (by decide))

lemma writeFlags_append (xs ys : List DbWrite) :
    writeFlags (xs ++ ys) = writeFlags xs ++ writeFlags ys := by
  induction xs with
  | nil => rfl
  | cons w ws ih =>
      cases w <;> simp [writeFlags, ih]

lemma advisory_flag_counts (sel : Position) (prm : RecordSellParams) :
    (writeFlags (sellOversizedWrite sel prm ++ sellSuspiciousWrite sel prm)).countP
        (fun f => f.flag_type == FlagType.oversized_position) =
      (if sel.current_amount * sel.avg_entry_price > 50000 then 1 else 0) ∧
    (writeFlags (sellOversizedWrite sel prm ++ sellSuspiciousWrite sel prm)).countP
        (fun f => f.flag_type == FlagType.suspicious_pnl) =
      (if sellRealizedPnl sel prm < 0 ∧ prm.proceeds > sellCostBasis sel prm * 1.1
        then 1 else 0) := by
  rw [writeFlags_append]
  by_cases ho : sel.current_amount * sel.avg_entry_price > 50000 <;>
    by_cases hs : sellRealizedPnl sel prm < 0 ∧ prm.proceeds > sellCostBasis sel prm * 1.1 <;>
      simp [sellOversizedWrite, sellSuspiciousWrite, ho, hs, writeFlags, mkFlag,
        List.countP_cons, List.countP_nil]

/-- C9: on a successful sell, an `oversized_position` flag is persisted
exactly when the pre-sell remaining amount times the average entry price
exceeds 50000; the sell still succeeds either way, and in the call's write
sequence the position mutation comes first, followed only by flag inserts.
The flag carries severity warning by construction (`sellOversizedWrite`). -/
theorem oversized_flag_spec (db : DB) (now : Nat) (prm : RecordSellParams) (sel : Position)
    (hsel : selectOpenPosition db prm.walletId prm.token = some sel)
    (h1 : 0 < prm.amount) (h2 : 0 ≤ prm.proceeds)
    (hle : prm.amount ≤ sel.current_amount) :
    (∃ r, (recordSell db now prm).2 = Except.ok r) ∧
    ((recordSell db now prm).1.flags.countP
        (fun f => f.flag_type == FlagType.oversized_position) =
      db.flags.countP (fun f => f.flag_type == FlagType.oversized_position) +
        (if sel.current_amount * sel.avg_entry_price > 50000 then 1 else 0)) ∧
    (∀ f ∈ sellOversizedWrite sel prm,
      f = DbWrite.insertFlag (mkFlag
        { positionId := some sel.id
          tradeId := some prm.tradeId
          walletId := prm.walletId
          flagType := FlagType.oversized_position
          severity := Severity.warning
          description :=
            "Large position detected: " ++ prm.token ++ " position value $" ++
              ratStr (sel.current_amount * sel.avg_entry_price) ++ " in wallet " ++
              toString prm.walletId }) Conn.pool) ∧
    (∃ ws, (recordSellWrites db now prm).1 =
        DbWrite.updatePos sel.id (sellUpdate sel prm now) Conn.txClient :: ws ∧
      ∀ w ∈ ws, ∃ f, w = DbWrite.insertFlag f Conn.pool) := by
  have h1a := not_le.mpr h1
  have h2a := not_lt.mpr h2
  refine ⟨?_, ?_, ?_, ?_⟩
  · rw [recordSell_success db now prm sel h1a h2a hsel hle]
    exact ⟨_, rfl⟩
  · rw [recordSell_success db now prm sel h1a h2a hsel hle]
    show (db.flags ++ _).countP _ = _
    rw [List.countP_append, (advisory_flag_counts sel prm).1]
  · intro f hf
    unfold sellOversizedWrite at hf
    split at hf
    · simpa using hf
    · simp at hf
  · exact ⟨sellOversizedWrite sel prm ++ sellSuspiciousWrite sel prm,
      recordSellWrites_success db now prm sel h1a h2a hsel hle ▸ rfl,
      sell_advisory_pool sel prm⟩

/-- Witness for C9 at a concrete database and sell call. -/
theorem oversized_flag_spec_witness :
    ∃ r, (recordSell witDb 2 ⟨1, "SOL", 30, 360, 2⟩).2 = Except.ok r :=
  (oversized_flag_spec witDb 2 ⟨1, "SOL", 30, 360, 2⟩ witPos rfl
    (by decide) (by decide) (by decide)).1

/-- C10: on a successful sell, a `suspicious_pnl` flag is persisted exactly
when this sell's realized P&L is negative while the proceeds exceed the cost
basis times 1.1; whenever the position's average entry price is non-negative
that condition is unsatisfiable, so no `suspicious_pnl` flag is ever
persisted. -/
theorem suspicious_flag_unreachable (db : DB) (now : Nat) (prm : RecordSellParams)
    (sel : Position)
    (hsel : selectOpenPosition db prm.walletId prm.token = some sel)
    (h1 : 0 < prm.amount) (h2 : 0 ≤ prm.proceeds)
    (hle : prm.amount ≤ sel.current_amount) :
    ((recordSell db now prm).1.flags.countP
        (fun f => f.flag_type == FlagType.suspicious_pnl) =
      db.flags.countP (fun f => f.flag_type == FlagType.suspicious_pnl) +
        (if sellRealizedPnl sel prm < 0 ∧ prm.proceeds > sellCostBasis sel prm * 1.1
          then 1 else 0)) ∧
    (0 ≤ sel.avg_entry_price →
      (recordSell db now prm).1.flags.countP
          (fun f => f.flag_type == FlagType.suspicious_pnl) =
        db.flags.countP (fun f => f.flag_type == FlagType.suspicious_pnl)) := by
  have h1a := not_le.mpr h1
  have h2a := not_lt.mpr h2
  have hcount : (recordSell db now prm).1.flags.countP
      (fun f => f.flag_type == FlagType.suspicious_pnl) =
      db.flags.countP (fun f => f.flag_type == FlagType.suspicious_pnl) +
        (if sellRealizedPnl sel prm < 0 ∧ prm.proceeds > sellCostBasis sel prm * 1.1
          then 1 else 0) := by
    rw [recordSell_success db now prm sel h1a h2a hsel hle]
    show (db.flags ++ _).countP _ = _
    rw [List.countP_append, (advisory_flag_counts sel prm).2]
  refine ⟨hcount, ?_⟩
  intro havg
  rw [hcount]
  have hcb : 0 ≤ sellCostBasis sel prm := mul_nonneg havg (le_of_lt h1)
  have hfalse : ¬ (sellRealizedPnl sel prm < 0 ∧
      prm.proceeds > sellCostBasis sel prm * 1.1) := by
    rintro ⟨hneg, hgt⟩
    have hdef : sellRealizedPnl sel prm = prm.proceeds - sellCostBasis sel prm := rfl
    rw [hdef] at hneg
    nlinarith [hcb, hgt, hneg]
  rw [if_neg hfalse]
  exact Nat.add_zero _

/-- Witness for C10: with a non-negative average entry price the suspicious
P&L flag count is unchanged by a concrete successful sell. -/
theorem suspicious_flag_unreachable_witness :
    (recordSell witDb 2 ⟨1, "SOL", 30, 360, 2⟩).1.flags.countP
        (fun f => f.flag_type == FlagType.suspicious_pnl) =
      witDb.flags.countP (fun f => f.flag_type == FlagType.suspicious_pnl) :=
  (suspicious_flag_unreachable witDb 2 ⟨1, "SOL", 30, 360, 2⟩ witPos rfl
    (by decide) (by decide) (by decide)).2 (by decide)

/-- C6: buying 100 units at cost 1000 and then selling 30 for 360 and 70 for
770 yields realized P&L 60 and then 70 (cost basis 300 and 700), a final
cumulative realized P&L of 130, remaining amount 0, state CLOSED with the
close timestamp set; each sell's cost basis is the average entry price times
the sold amount and its realized P&L is proceeds minus cost basis. -/
theorem scenario_full_cycle :
    ∃ r2 r3 : SellResult,
      (recordSell (recordBuy dbEmpty 1 c6buy).1 2 c6sell1).2 = Except.ok r2 ∧
      (recordSell (recordSell (recordBuy dbEmpty 1 c6buy).1 2 c6sell1).1 3 c6sell2).2
        = Except.ok r3 ∧
      r2.cost_basis = 300 ∧ r2.realized_pnl = 60 ∧
      r3.cost_basis = 700 ∧ r3.realized_pnl = 70 ∧
      r2.cost_basis = r2.position.avg_entry_price * 30 ∧
      r2.realized_pnl = 360 - r2.cost_basis ∧
      r3.cost_basis = r3.position.avg_entry_price * 70 ∧
      r3.realized_pnl = 770 - r3.cost_basis ∧
      r3.position.realized_pnl = 130 ∧
      r3.position.current_amount = 0 ∧
      r3.position.status = Status.CLOSED ∧
      r3.position.closed_at = some 3 := by
  have hsel1 : selectOpenPosition (recordBuy dbEmpty 1 c6buy).1
      c6sell1.walletId c6sell1.token = some c6pos1 := rfl
  have hs1 := recordSell_success (recordBuy dbEmpty 1 c6buy).1 2 c6sell1 c6pos1
    (by norm_num [c6sell1]) (by norm_num [c6sell1])
    hsel1 (by norm_num [c6sell1, c6pos1, buyNewPosition, c6buy])
  have hpos2 : (recordSell (recordBuy dbEmpty 1 c6buy).1 2 c6sell1).1.positions
      = [c6pos2] := by
    rw [hs1]
    have hl : (recordBuy dbEmpty 1 c6buy).1.positions = [c6pos1] := rfl
    show List.map _ (recordBuy dbEmpty 1 c6buy).1.positions = _
    rw [hl]
    simp [c6pos1, c6pos2]
  have hstat2 : c6pos2.status = Status.PART := by
    norm_num [c6pos2, sellUpdate, c6pos1, buyNewPosition, c6buy, c6sell1]
  have hm2 : matchesOpen c6sell2.walletId c6sell2.token c6pos2 = true := by
    have hw : c6pos2.wallet_id = 1 := rfl
    have ht : c6pos2.token = "SOL" := rfl
    simp [matchesOpen, hw, ht, hstat2, c6sell2]
  have hsel2 : selectOpenPosition (recordSell (recordBuy dbEmpty 1 c6buy).1 2 c6sell1).1
      c6sell2.walletId c6sell2.token = some c6pos2 := by
    unfold selectOpenPosition
    rw [hpos2]
    simp [List.filter_cons, hm2, earliestFirstEntry]
  have hs2 := recordSell_success (recordSell (recordBuy dbEmpty 1 c6buy).1 2 c6sell1).1
    3 c6sell2 c6pos2 (by norm_num [c6sell2]) (by norm_num [c6sell2]) hsel2
    (by norm_num [c6sell2, c6pos2, sellUpdate, c6pos1, buyNewPosition, c6buy, c6sell1])
  refine ⟨{ position := c6pos2, realized_pnl := sellRealizedPnl c6pos1 c6sell1,
            cost_basis := sellCostBasis c6pos1 c6sell1 },
          { position := c6pos3, realized_pnl := sellRealizedPnl c6pos2 c6sell2,
            cost_basis := sellCostBasis c6pos2 c6sell2 },
          ?_, ?_, ?_, ?_, ?_, ?_, ?_, ?_, ?_, ?_, ?_, ?_, ?_, ?_⟩
  · rw [hs1]
    rfl
  · rw [hs2]
    rfl
  · norm_num [sellCostBasis, c6pos1, buyNewPosition, c6buy, c6sell1]
  · norm_num [sellRealizedPnl, sellCostBasis, c6pos1, buyNewPosition, c6buy, c6sell1]
  · norm_num [sellCostBasis, c6pos2, sellUpdate, c6pos1, buyNewPosition, c6buy, c6sell2]
  · norm_num [sellRealizedPnl, sellCostBasis, c6pos2, sellUpdate, c6pos1, buyNewPosition,
      c6buy, c6sell1, c6sell2]
  · rfl
  · rfl
  · rfl
  · rfl
  · norm_num [c6pos3, sellUpdate, sellRealizedPnl, sellCostBasis, c6pos2, c6pos1,
      buyNewPosition, c6buy, c6sell1, c6sell2]
  · norm_num [c6pos3, sellUpdate, c6pos2, c6pos1, buyNewPosition, c6buy, c6sell1, c6sell2]
  · norm_num [c6pos3, sellUpdate, c6pos2, c6pos1, buyNewPosition, c6buy, c6sell1, c6sell2]
  · norm_num [c6pos3, sellUpdate, c6pos2, c6pos1, buyNewPosition, c6buy, c6sell1, c6sell2]

lemma recordSellWrites_shape (db : DB) (now : Nat) (prm : RecordSellParams) :
    (recordSellWrites db now prm).1 = [] ∨
    (∃ f, (recordSellWrites db now prm).1 = [DbWrite.insertFlag f Conn.pool]) ∨
    (∃ i u ws, (recordSellWrites db now prm).1 =
        DbWrite.updatePos i u Conn.txClient :: ws ∧
      ∀ w ∈ ws, ∃ f, w = DbWrite.insertFlag f Conn.pool) := by
  by_cases h1 : prm.amount ≤ 0
  · left
    simp [recordSellWrites, h1]
  by_cases h2 : prm.proceeds < 0
  · left
    simp [recordSellWrites, h1, h2]
  cases hsel : selectOpenPosition db prm.walletId prm.token with
  | none =>
      right; left
      exact ⟨sellWithoutPositionFlag prm, by simp [recordSellWrites, h1, h2, hsel]⟩
  | some sel =>
      by_cases hgt : prm.amount > sel.current_amount
      · right; left
        exact ⟨sellExceedsPositionFlag sel prm, by simp [recordSellWrites, h1, h2, hsel, hgt]⟩
      · right; right
        refine ⟨sel.id, sellUpdate sel prm now,
          sellOversizedWrite sel prm ++ sellSuspiciousWrite sel prm, ?_,
          sell_advisory_pool sel prm⟩
        rw [recordSellWrites_success db now prm sel h1 h2 hsel (not_lt.mp hgt)]

lemma recordBuyWrites_shape (db : DB) (now : Nat) (prm : RecordBuyParams) :
    (recordBuyWrites db now prm).1 = [] ∨
    (∃ p, (recordBuyWrites db now prm).1 = [DbWrite.insertPos p Conn.txClient]) ∨
    (∃ i u, (recordBuyWrites db now prm).1 = [DbWrite.updatePos i u Conn.txClient]) := by
  by_cases h1 : prm.amount ≤ 0
  · left
    simp [recordBuyWrites, h1]
  by_cases h2 : prm.cost ≤ 0
  · left
    simp [recordBuyWrites, h1, h2]
  cases hsel : selectOpenPosition db prm.walletId prm.token with
  | none =>
      right; left
      exact ⟨buyNewPosition db now prm, by simp [recordBuyWrites, h1, h2, hsel]⟩
  | some existing =>
      right; right
      exact ⟨existing.id, buyUpdate existing prm now,
        by simp [recordBuyWrites, h1, h2, hsel]⟩

/-- C7 (amended): position writes issued by a buy or sell are transactional
(they are issued on the transaction client and are discarded when the
transaction does not commit), but every flag insert is issued through the
module-level pool connection, so it autocommits: the flags persisted by a
call are the same whether or not its transaction commits.  Flag persistence
is therefore not atomic with the position mutation. -/
theorem flag_writes_autocommit (db : DB) (now : Nat) (prm : RecordSellParams)
    (bprm : RecordBuyParams) :
    (∀ w ∈ (recordSellWrites db now prm).1, ∀ f c,
        w = DbWrite.insertFlag f c → c = Conn.pool) ∧
    (∀ w ∈ (recordSellWrites db now prm).1, ∀ i u c,
        w = DbWrite.updatePos i u c → c = Conn.txClient) ∧
    (∀ w ∈ (recordBuyWrites db now bprm).1, ∀ f c, w ≠ DbWrite.insertFlag f c) ∧
    ((applyWrites db (recordSellWrites db now prm).1 false).positions = db.positions) ∧
    ((applyWrites db (recordSellWrites db now prm).1 false).flags =
      (applyWrites db (recordSellWrites db now prm).1 true).flags) ∧
    ((applyWrites db (recordBuyWrites db now bprm).1 false).positions = db.positions) := by
  have hshape := recordSellWrites_shape db now prm
  have hbshape := recordBuyWrites_shape db now bprm
  refine ⟨?_, ?_, ?_, ?_, ?_, ?_⟩
  · rcases hshape with hs | ⟨f0, hs⟩ | ⟨i0, u0, ws, hs, hws⟩ <;> rw [hs]
    · intro w hw
      cases hw
    · intro w hw f c hx
      rw [List.mem_singleton.mp hw] at hx
      injection hx with h1 h2
      rw [← h2]
    · intro w hw f c hx
      rcases List.mem_cons.mp hw with hw1 | hw1
      · rw [hw1] at hx
        cases hx
      · obtain ⟨f2, hf2⟩ := hws w hw1
        rw [hf2] at hx
        injection hx with h1 h2
        rw [← h2]
  · rcases hshape with hs | ⟨f0, hs⟩ | ⟨i0, u0, ws, hs, hws⟩ <;> rw [hs]
    · intro w hw
      cases hw
    · intro w hw i u c hx
      rw [List.mem_singleton.mp hw] at hx
      cases hx
    · intro w hw i u c hx
      rcases List.mem_cons.mp hw with hw1 | hw1
      · rw [hw1] at hx
        injection hx with h1 h2 h3
        rw [← h3]
      · obtain ⟨f2, hf2⟩ := hws w hw1
        rw [hf2] at hx
        cases hx
  · rcases hbshape with hb | ⟨p0, hb⟩ | ⟨i1, u1, hb⟩ <;> rw [hb]
    · intro w hw
      cases hw
    · intro w hw f c hcon
      rw [List.mem_singleton.mp hw] at hcon
      cases hcon
    · intro w hw f c hcon
      rw [List.mem_singleton.mp hw] at hcon
      cases hcon
  · rcases hshape with hs | ⟨f0, hs⟩ | ⟨i0, u0, ws, hs, hws⟩ <;> rw [hs]
    · rw [applyWrites_nil]
    · rw [applyWrites_flag]
    · rw [applyWrites_update_then_flags db i0 u0 ws hws false]
      simp
  · rcases hshape with hs | ⟨f0, hs⟩ | ⟨i0, u0, ws, hs, hws⟩ <;> rw [hs]
    · rw [applyWrites_nil, applyWrites_nil]
    · rw [applyWrites_flag, applyWrites_flag]
    · rw [applyWrites_update_then_flags db i0 u0 ws hws false,
        applyWrites_update_then_flags db i0 u0 ws hws true]
  · rcases hbshape with hb | ⟨p0, hb⟩ | ⟨i1, u1, hb⟩ <;> rw [hb]
    · rw [applyWrites_nil]
    · rfl
    · rfl

/-- C7 is refuted: there is a successful sell whose write sequence, when the
surrounding transaction fails to commit, leaves the advisory flag persisted
(it went through the autocommitting pool connection) while the position
mutation is rolled back — the flag insertion and the position change do not
commit or roll back as one unit. -/
theorem atomicity_counterexample :
    (∃ r, (recordSellWrites c7db 2 c7sell).2 = Except.ok r) ∧
    (applyWrites c7db (recordSellWrites c7db 2 c7sell).1 false).positions
      = c7db.positions ∧
    (applyWrites c7db (recordSellWrites c7db 2 c7sell).1 false).flags ≠ c7db.flags := by
  have hsel : selectOpenPosition c7db c7sell.walletId c7sell.token = some c7pos := rfl
  have h1 : ¬ c7sell.amount ≤ 0 := by norm_num [c7sell]
  have h2 : ¬ c7sell.proceeds < 0 := by norm_num [c7sell]
  have hle : c7sell.amount ≤ c7pos.current_amount := by
    norm_num [c7sell, c7pos, buyNewPosition, c7buy]
  have hw := recordSellWrites_success c7db 2 c7sell c7pos h1 h2 hsel hle
  have hcond : c7pos.current_amount * c7pos.avg_entry_price > 50000 := by
    norm_num [c7pos, buyNewPosition, c7buy]
  refine ⟨⟨{ position := sellUpdate c7pos c7sell 2,
             realized_pnl := sellRealizedPnl c7pos c7sell,
             cost_basis := sellCostBasis c7pos c7sell }, by rw [hw]⟩, ?_, ?_⟩
  · rw [hw, applyWrites_update_then_flags c7db c7pos.id (sellUpdate c7pos c7sell 2) _
      (sell_advisory_pool c7pos c7sell) false]
    simp
  · rw [hw, applyWrites_update_then_flags c7db c7pos.id (sellUpdate c7pos c7sell 2) _
      (sell_advisory_pool c7pos c7sell) false]
    intro hcon
    have hlen := congrArg List.length hcon
    simp only [writeFlags_append, sellOversizedWrite, hcond, if_true, writeFlags,
      List.length_append, List.length_cons] at hlen
    omega

/-- Witness for the amended C7: a rolled-back sell call leaves the positions
of a concrete database untouched. -/
theorem flag_writes_autocommit_witness :
    (applyWrites dbEmpty (recordSellWrites dbEmpty 5 ⟨1, "SOL", 3, 4, 6⟩).1 false).positions
      = dbEmpty.positions :=
  (flag_writes_autocommit dbEmpty 5 ⟨1, "SOL", 3, 4, 6⟩ ⟨1, "SOL", 3, 4, 6⟩).2.2.2.1
